import Mathlib

/-!
Verification of `hooks/horizon_contexts.py` (charm-openstack-dashboard).

This file gives a shallow embedding of the context generators of the
charm's `horizon_contexts` module and proves properties of them:

* `IdentityServiceContext.normalize` and `IdentityServiceContext.__call__`
  (endpoint-type normalization, first-complete-record selection, the
  completeness check and multi-region aggregation);
* `HorizonContext.__call__` (flat configuration translation);
* `ApacheContext.__call__` (SSL enforcement flag);
* `ApacheSSLContext.__call__` (SSL material resolution, modelled with an
  explicit file-system event trace);
* `LocalSettingsContext.__call__` (priority-ordered settings fragments);
* `WebSSOFIDServiceProviderContext.__call__` (federation providers).

Conventions of the embedding: a Python value read from relation data or
configuration is an `Option String` (`none` = absent / `None`,
`some ""` = present but empty); Python raising an exception is
`Except.error`; file-system side effects are collected in an explicit
event list.  External charmhelpers helpers are embedded with their
upstream semantics (`context_complete`, `bool_from_string`), or taken as
parameters of the environment when their behaviour is irrelevant to the
properties (`format_ipv6_addr`, `b64decode`, `json.loads`, `pwgen`).
-/

namespace HorizonCtx

/-- Python truthiness of an optional string value: `None` and `''` are
falsy, every other string is truthy. -/
def truthy : Option String → Bool
  | none => false
  | some s => !s.isEmpty

/-- Python `str(x)` of an optional string: `None` renders as `"None"`
(as `%s`-interpolation does in the source). -/
def pyStr : Option String → String
  | none => "None"
  | some s => s

/-- `VALID_ENDPOINT_TYPES`: the fixed endpoint-type dictionary of the
module, as an association list. -/
def VALID_ENDPOINT_TYPES : List (String × String) :=
  [("PUBLICURL", "publicURL"),
   ("INTERNALURL", "internalURL"),
   ("ADMINURL", "adminURL")]

/-- The error message raised by `IdentityServiceContext.normalize` for an
invalid endpoint type. -/
def normalizeErr (endpoint_type : String) : String :=
  "Endpoint type specified " ++ endpoint_type ++ " is not a valid endpoint type"

/-- `IdentityServiceContext.normalize`: look the upper-cased endpoint
type up in `VALID_ENDPOINT_TYPES` (`dict.get` with default `None`); if
the result is falsy, log and raise; otherwise return the normalized
form. -/
def normalize (endpoint_type : String) : Except String String :=
  match VALID_ENDPOINT_TYPES.lookup endpoint_type.toUpper with
  | some v => if v.isEmpty then Except.error (normalizeErr endpoint_type) else Except.ok v
  | none => Except.error (normalizeErr endpoint_type)

/-- One `identity-service` relation record (`relation_get(rid=rid, unit=unit)`),
restricted to the keys the generator reads.  `none` means the key is
absent from the relation data; `some ""` means it is present but empty. -/
structure IdRData where
  service_host : Option String
  service_port : Option String
  service_protocol : Option String
  api_version : Option String
  admin_domain_id : Option String
  region : Option String
deriving DecidableEq

/-- Environment of `IdentityServiceContext.__call__`: the relation data
(one inner list of records per relation id, in iteration order), the two
configuration values read, and `charmhelpers`' `format_ipv6_addr`
(returns the bracketed form for an IPv6 literal, `None` otherwise),
which is taken as a parameter. -/
structure IdEnv where
  relations : List (List IdRData)
  default_domain : Option String
  endpoint_type : Option String
  fmtIpv6 : String → Option String

/-- The `local_ctxt` dictionary built for one record.
`admin_domain_id = none` models "the key was not added";
`admin_domain_id = some v` models "the key was added with value `v`"
(where `v` itself may be absent). -/
structure LocalCtxt where
  service_port : Option String
  service_host : Option String
  service_protocol : String
  api_version : String
  admin_domain_id : Option (Option String)
deriving DecidableEq

/-- `serv_host = format_ipv6_addr(serv_host) or serv_host`: the bracketed
form when `format_ipv6_addr` returns a truthy value, else the raw host
(`format_ipv6_addr(None)` is `None`, so an absent host stays absent). -/
def servHost (env : IdEnv) (rd : IdRData) : Option String :=
  match rd.service_host with
  | none => none
  | some h =>
      match env.fmtIpv6 h with
      | some b => if b.isEmpty then some h else some b
      | none => some h

/-- Lines 127-139 of the source: build `local_ctxt` from one record.
`service_protocol` is `rdata.get('service_protocol') or 'http'` (falsy
values replaced by `'http'`); `api_version` is
`rdata.get('api_version', '2')` (defaulted only when the key is absent);
`admin_domain_id` is added exactly when the api version is `'3'` and no
`default_domain` is configured. -/
def extractLocalCtxt (env : IdEnv) (rd : IdRData) : LocalCtxt :=
  { service_port := rd.service_port
    service_host := servHost env rd
    service_protocol :=
      match rd.service_protocol with
      | some p => if p.isEmpty then "http" else p
      | none => "http"
    api_version := rd.api_version.getD "2"
    admin_domain_id :=
      if rd.api_version.getD "2" = "3" ∧ truthy env.default_domain = false then
        some rd.admin_domain_id
      else none }

/-- `charmhelpers.contrib.openstack.context.context_complete`: a context
dictionary is complete iff none of its values is `None` or `''`. -/
def context_complete (lc : LocalCtxt) : Bool :=
  truthy lc.service_port && truthy lc.service_host &&
  !lc.service_protocol.isEmpty && !lc.api_version.isEmpty &&
  (match lc.admin_domain_id with
   | none => true
   | some v => truthy v)

/-- The synthetic region endpoint URL
`'%(service_protocol)s://%(service_host)s:%(service_port)s/v2.0' % local_ctxt`. -/
def endpointURL (lc : LocalCtxt) : String :=
  lc.service_protocol ++ "://" ++ pyStr lc.service_host ++ ":" ++
    pyStr lc.service_port ++ "/v2.0"

/-- Helper of `pySplitWhitespace`: walk the character list, collecting
the current word in reverse in `acc` and emitting it at whitespace. -/
def splitWsAux : List Char → List Char → List String
  | [], acc => if acc.isEmpty then [] else [String.mk acc.reverse]
  | c :: cs, acc =>
      if c.isWhitespace then
        if acc.isEmpty then splitWsAux cs []
        else String.mk acc.reverse :: splitWsAux cs []
      else splitWsAux cs (c :: acc)

/-- Python `str.split()` with no argument: split on whitespace runs and
drop empty pieces. -/
def pySplitWhitespace (s : String) : List String :=
  splitWsAux s.toList []

/-- The mutable state of the relation loop of
`IdentityServiceContext.__call__`: the `ctxt` dictionary (`none` while it
is still the initial `{}`) and the `regions` set. -/
structure IdLoopState where
  base : Option LocalCtxt
  regions : Finset (String × String)

/-- One iteration of the inner loop (lines 122-152): build `local_ctxt`,
skip the record if incomplete, otherwise accumulate the
`(endpoint, region)` pairs of its whitespace-separated region names and
assign `ctxt = local_ctxt` iff `ctxt` is still empty. -/
def idStep (env : IdEnv) (st : IdLoopState) (rd : IdRData) : IdLoopState :=
  let lc := extractLocalCtxt env rd
  if context_complete lc then
    { base :=
        match st.base with
        | none => some lc
        | some b => some b
      regions :=
        match rd.region with
        | none => st.regions
        | some r =>
            (pySplitWhitespace r).foldl
              (fun s reg => insert (endpointURL lc, reg) s) st.regions }
  else st

/-- The full relation loop: iterate over all units of all relation ids in
order, starting from `ctxt = {}` and `regions = set()`. -/
def idLoop (env : IdEnv) : IdLoopState :=
  env.relations.flatten.foldl (idStep env) { base := none, regions := ∅ }

/-- Python 2 tuple (and equal-keyed dict) comparison on the
`(endpoint, region)` pairs: lexicographic order, used by `sorted`. -/
def pairLe (a b : String × String) : Prop :=
  a.1 < b.1 ∨ (a.1 = b.1 ∧ a.2 ≤ b.2)

instance : DecidableRel pairLe := fun a b => by
  unfold pairLe; exact inferInstance

instance : IsTrans (String × String) pairLe := by
  constructor
  intro a b c hab hbc
  rcases hab with hab | ⟨hab, hab2⟩ <;> rcases hbc with hbc | ⟨hbc, hbc2⟩
  · exact Or.inl (lt_trans hab hbc)
  · exact Or.inl (hbc ▸ hab)
  · exact Or.inl (hab ▸ hbc)
  · exact Or.inr ⟨hab.trans hbc, le_trans hab2 hbc2⟩

instance : IsAntisymm (String × String) pairLe := by
  constructor
  intro a b hab hba
  rcases hab with hab | ⟨hab, hab2⟩ <;> rcases hba with hba | ⟨hba, hba2⟩
  · exact absurd (lt_trans hab hba) (lt_irrefl _)
  · exact absurd hab (hba ▸ lt_irrefl _)
  · exact absurd hba (hab ▸ lt_irrefl _)
  · exact Prod.ext hab (le_antisymm hab2 hba2)

instance : IsTotal (String × String) pairLe := by
  constructor
  intro a b
  rcases lt_trichotomy a.1 b.1 with h | h | h
  · exact Or.inl (Or.inl h)
  · rcases le_total a.2 b.2 with h2 | h2
    · exact Or.inl (Or.inr ⟨h, h2⟩)
    · exact Or.inr (Or.inr ⟨h.symm, h2⟩)
  · exact Or.inr (Or.inl h)

/-- The final context returned by `IdentityServiceContext.__call__`.
`base = none` models the still-empty `ctxt` dictionary; `regions` and
the endpoint keys model the optional keys added after the loop. -/
structure IdCtxt where
  base : Option LocalCtxt
  regions : Option (List (String × String))
  primary_endpoint : Option String
  secondary_endpoint : Option String
deriving DecidableEq

/-- The optional `regions` key: present iff more than one distinct
`(endpoint, region)` pair was accumulated, and then equal to `sorted` of
the set (Python 2 sorts the equal-keyed dicts exactly like the
underlying pairs). -/
def idRegionsOpt (env : IdEnv) : Option (List (String × String)) :=
  if 1 < (idLoop env).regions.card then
    some (Finset.sort pairLe (idLoop env).regions)
  else none

/-- `IdentityServiceContext.__call__` (lines 115-173): run the relation
loop, add `regions` when more than one distinct pair was accumulated
(`sorted` of the set), then, when the `endpoint-type` configuration value
is truthy, split it on commas, normalize every piece (the first invalid
piece raises), and take the first piece as the primary endpoint and, when
present, the second as the secondary endpoint. -/
def idCall (env : IdEnv) : Except String IdCtxt :=
  if truthy env.endpoint_type then
    match ((pyStr env.endpoint_type).splitOn ",").mapM normalize with
    | Except.error e => Except.error e
    | Except.ok eps =>
        Except.ok
          { base := (idLoop env).base
            regions := idRegionsOpt env
            primary_endpoint := eps.head?
            secondary_endpoint := if 1 < eps.length then eps[1]? else none }
  else
    Except.ok
      { base := (idLoop env).base
        regions := idRegionsOpt env
        primary_endpoint := none
        secondary_endpoint := none }

/-- Specification-side reformulation of the base-context selection: the
extracted context of the first record (in iteration order) that passes
the completeness check. -/
def firstComplete (env : IdEnv) : Option LocalCtxt :=
  env.relations.flatten.findSome? (fun rd =>
    if context_complete (extractLocalCtxt env rd) then
      some (extractLocalCtxt env rd)
    else none)

/-- Specification-side reformulation of the region accumulation: the
`(endpoint, region)` pairs contributed by the complete records that carry
a region value, in iteration order (the loop skips incomplete records
before reaching the region handling). -/
def regionPairs (env : IdEnv) : List (String × String) :=
  env.relations.flatten.flatMap (fun rd =>
    if context_complete (extractLocalCtxt env rd) then
      match rd.region with
      | some r =>
          (pySplitWhitespace r).map
            (fun reg => (endpointURL (extractLocalCtxt env rd), reg))
      | none => []
    else [])

/-- Concrete complete identity record (used to instantiate theorems). -/
def rdComplete1 : IdRData :=
  { service_host := some "10.5.0.10", service_port := some "5000",
    service_protocol := some "https", api_version := none,
    admin_domain_id := none, region := none }

/-- Concrete incomplete identity record: the service host is absent. -/
def rdNoHost : IdRData :=
  { service_host := none, service_port := some "5000",
    service_protocol := none, api_version := none,
    admin_domain_id := none, region := none }

/-- Concrete identity environment with one complete record surrounded by
incomplete ones. -/
def envFirstWins : IdEnv :=
  { relations := [[rdNoHost, rdComplete1], [rdNoHost]],
    default_domain := none, endpoint_type := none,
    fmtIpv6 := fun _ => none }

/-- Concrete identity record that carries both service host and port but
uses keystone api version 3 without an admin domain id. -/
def rdV3NoAdmin : IdRData :=
  { service_host := some "10.5.0.10", service_port := some "5000",
    service_protocol := none, api_version := some "3",
    admin_domain_id := none, region := none }

/-- Concrete identity environment for the api-version-3 completeness
counterexample: no `default_domain` is configured. -/
def envV3 : IdEnv :=
  { relations := [[rdV3NoAdmin]],
    default_domain := none, endpoint_type := none,
    fmtIpv6 := fun _ => none }

/-- Concrete complete identity record carrying region `RegionOne`. -/
def rdRegionComplete : IdRData :=
  { service_host := some "10.5.0.10", service_port := some "5000",
    service_protocol := some "https", api_version := none,
    admin_domain_id := none, region := some "RegionOne" }

/-- Concrete incomplete identity record carrying region `RegionTwo`: it
has a host and a port (so the claim's synthetic endpoint URL is
well-defined for it) but an empty `api_version`. -/
def rdRegionIncomplete : IdRData :=
  { service_host := some "10.5.0.20", service_port := some "5000",
    service_protocol := some "https", api_version := some "",
    admin_domain_id := none, region := some "RegionTwo" }

/-- Concrete identity environment with one complete and one incomplete
region-carrying record. -/
def envRegions : IdEnv :=
  { relations := [[rdRegionComplete, rdRegionIncomplete]],
    default_domain := none, endpoint_type := none,
    fmtIpv6 := fun _ => none }

/-- One `dashboard-plugin` relation data record, restricted to the two
keys the generator checks; `none` models an absent key.  Relation data
values returned by `relation_get` are strings, so the priority is a
string. -/
structure PluginRData where
  local_settings : Option String
  priority : Option String
deriving DecidableEq

/-- Environment of `LocalSettingsContext.__call__`: for each
`dashboard-plugin` relation id (in iteration order) the related units,
each as a `(unit name, relation data)` pair. -/
structure PluginEnv where
  relations : List (List (String × PluginRData))
deriving DecidableEq

/-- The body of the collection loop for one relation id: take the first
related unit (`related_units(rid)[0]`; the `IndexError` of an empty unit
list is swallowed by `except IndexError: pass`), and keep the pair when
the relation data carries both `local-settings` and `priority`. -/
def fragOfRid (units : List (String × PluginRData)) : Option (String × PluginRData) :=
  match units.head? with
  | none => none
  | some (u, rdata) =>
      if rdata.local_settings.isSome = true ∧ rdata.priority.isSome = true then
        some (u, rdata)
      else none

/-- Lines 284-292 of the source: the collected `(unit, rdata)` fragments,
one per qualifying relation id, in iteration order. -/
def collectFragments (env : PluginEnv) : List (String × PluginRData) :=
  env.relations.filterMap fragOfRid

/-- Python 2 `str` strict comparison, byte-wise lexicographic, embedded
structurally on the character lists. -/
def pyStrLt : List Char → List Char → Bool
  | [], [] => false
  | [], _ :: _ => true
  | _ :: _, [] => false
  | a :: as, b :: bs =>
      if a < b then true
      else if b < a then false
      else pyStrLt as bs

/-- Python 2 `s <= t` on strings: not `t < s`. -/
def pyStrLe (s t : String) : Bool := !pyStrLt t.toList s.toList

/-- The sort key `lambda r: r[1]['priority']` (the key is guaranteed
present for collected fragments, so the default is never observed).  The
key is the raw priority string. -/
def prio (f : String × PluginRData) : String := f.2.priority.getD ""

/-- The fragment ordering used by `sorted`: ascending by the priority
string, which Python 2 compares lexicographically (so `'10' < '9'`). -/
def prioLe (a b : String × PluginRData) : Prop :=
  pyStrLe (prio a) (prio b) = true

instance : DecidableRel prioLe := fun a b => by
  unfold prioLe; exact inferInstance

/-- `sorted(relations, key=lambda r: r[1]['priority'])`: Python's sort is
stable, embedded as the (stable) insertion sort. -/
def sortedFragments (env : PluginEnv) : List (String × PluginRData) :=
  List.insertionSort prioLe (collectFragments env)

/-- The format call building one settings stanza: the comment header
line followed by the verbatim settings text, i.e.
`'# ' + unit + '\n' + local_settings`. -/
def renderFragment (f : String × PluginRData) : String :=
  "# " ++ f.1 ++ "\n" ++ f.2.local_settings.getD ""

/-- `LocalSettingsContext.__call__` (lines 279-300): the returned
dictionary, whose only key `settings` is bound to the rendered,
priority-sorted fragment list. -/
def localSettingsCall (env : PluginEnv) : List (String × List String) :=
  [("settings", (sortedFragments env).map renderFragment)]

/-- Concrete plugin fragments with distinct priorities. -/
def fragA : String × PluginRData :=
  ("dashboard-plugin-a/0", { local_settings := some "A_SETTING = 1", priority := some "30" })

/-- Concrete plugin fragment with a lexicographically lower priority
string than `fragA`. -/
def fragB : String × PluginRData :=
  ("dashboard-plugin-b/0", { local_settings := some "B_SETTING = 2", priority := some "10" })

/-- Concrete fragment with the numerically smaller priority `9`. -/
def fragNine : String × PluginRData :=
  ("dashboard-plugin-nine/0", { local_settings := some "NINE = 9", priority := some "9" })

/-- Concrete fragment with the numerically larger priority `10`, whose
priority string is lexicographically smaller than `"9"`. -/
def fragTen : String × PluginRData :=
  ("dashboard-plugin-ten/0", { local_settings := some "TEN = 10", priority := some "10" })

/-- Concrete plugin environment carrying the priority-9 fragment before
the priority-10 fragment. -/
def envNineTen : PluginEnv := { relations := [[fragNine], [fragTen]] }

/-- Concrete plugin environment: fragments arrive in one order. -/
def envPluginAB : PluginEnv := { relations := [[fragA], [fragB]] }

/-- Concrete plugin environment: the same fragments in the other order,
with an interspersed unit-less relation id and a record missing its
priority key. -/
def envPluginBA : PluginEnv :=
  { relations :=
      [[fragB], [],
       [("dashboard-plugin-c/0", { local_settings := some "C", priority := none })],
       [fragA]] }

/-- Environment of `ApacheContext.__call__`: the truthiness of
`config('enforce-ssl')`, the two pass-through configuration values, and
the `(cert, key)` pair returned by charmhelpers' `get_cert()`. -/
structure ApacheEnv where
  enforce_ssl_cfg : Bool
  hsts_max_age_seconds : Option String
  custom_theme : Option String
  ssl_cert : Option String
  ssl_key : Option String
deriving DecidableEq

/-- The context dictionary returned by `ApacheContext.__call__`. -/
structure ApacheCtxt where
  http_port : Nat
  https_port : Nat
  enforce_ssl : Bool
  hsts_max_age_seconds : Option String
  custom_theme : Option String
deriving DecidableEq

/-- The warning logged when SSL enforcement is requested without
resolvable SSL material. -/
def apacheWarn : String :=
  "Enforce ssl redirect requested but ssl not configured - skipping redirect"

/-- The initial `ctxt` dictionary of `ApacheContext.__call__`: fixed
port pair, `enforce_ssl` false, and the two pass-through values. -/
def apacheBaseCtxt (env : ApacheEnv) : ApacheCtxt :=
  { http_port := 70, https_port := 433, enforce_ssl := false,
    hsts_max_age_seconds := env.hsts_max_age_seconds,
    custom_theme := env.custom_theme }

/-- `ApacheContext.__call__` (lines 211-229): the returned context
together with the list of warning-level log messages emitted.
`enforce_ssl` is flipped to true only when enforcement is requested and
`all(get_cert())` holds (both pieces truthy); otherwise the flag stays
false and, when enforcement was requested, a warning is logged. -/
def apacheCall (env : ApacheEnv) : ApacheCtxt × List String :=
  if env.enforce_ssl_cfg then
    if truthy env.ssl_cert && truthy env.ssl_key then
      ({ apacheBaseCtxt env with enforce_ssl := true }, [])
    else
      (apacheBaseCtxt env, [apacheWarn])
  else
    (apacheBaseCtxt env, [])

/-- Environment of `ApacheSSLContext.__call__`: the related units of each
`certificates` relation id, the material returned by `get_ca_cert()` and
`get_cert()`, whether the two externally managed files exist, and
`b64decode` taken as a parameter. -/
structure SSLEnv where
  cert_rel_units : List (List String)
  ca_cert : Option String
  ssl_cert : Option String
  ssl_key : Option String
  cert_file_exists : Bool
  key_file_exists : Bool
  b64 : String → String

/-- The context dictionary returned by `ApacheSSLContext.__call__`:
`ssl_cert`/`ssl_key` are the optional path-valued keys (absent in the
unconfigured dictionary). -/
structure SSLCtxt where
  ssl_configured : Bool
  ssl_cert : Option String
  ssl_key : Option String
deriving DecidableEq

/-- A file-system side effect of `ApacheSSLContext.__call__`, in
execution order. -/
inductive FsEvent
  | installCA (data : String)
  | writeFile (path : String) (data : String)
  | chmod (path : String) (mode : Nat)
deriving DecidableEq

/-- `SSL_CERT_FILE` (externally managed certificate path). -/
def SSL_CERT_FILE : String := "/etc/apache2/ssl/horizon/cert_dashboard"

/-- `SSL_KEY_FILE` (externally managed key path). -/
def SSL_KEY_FILE : String := "/etc/apache2/ssl/horizon/key_dashboard"

/-- The `ssl_configured: False` dictionary. -/
def sslUnconfigured : SSLCtxt :=
  { ssl_configured := false, ssl_cert := none, ssl_key := none }

/-- `ApacheSSLContext.__call__` (lines 233-266): the returned context and
the ordered file-system events.  With no peer units on any `certificates`
relation id the local-authority path runs: a falsy CA certificate returns
the unconfigured context untouched; otherwise the CA certificate is
installed, and iff both cert and key are truthy they are base64-decoded
and written, the key file's mode is set to `0600` immediately after its
write, and the configured context is returned.  With peer units present,
the externally managed paths are reported iff both files exist. -/
def apacheSSLCall (env : SSLEnv) : SSLCtxt × List FsEvent :=
  if env.cert_rel_units.all (fun units => units.isEmpty) then
    if truthy env.ca_cert then
      if truthy env.ssl_cert && truthy env.ssl_key then
        ({ ssl_configured := true,
           ssl_cert := some "/etc/ssl/certs/dashboard.cert",
           ssl_key := some "/etc/ssl/private/dashboard.key" },
         [FsEvent.installCA (env.b64 (pyStr env.ca_cert)),
          FsEvent.writeFile "/etc/ssl/certs/dashboard.cert" (env.b64 (pyStr env.ssl_cert)),
          FsEvent.writeFile "/etc/ssl/private/dashboard.key" (env.b64 (pyStr env.ssl_key)),
          FsEvent.chmod "/etc/ssl/private/dashboard.key" 0o600])
      else
        (sslUnconfigured, [FsEvent.installCA (env.b64 (pyStr env.ca_cert))])
    else
      (sslUnconfigured, [])
  else
    if env.cert_file_exists && env.key_file_exists then
      ({ ssl_configured := true,
         ssl_cert := some SSL_CERT_FILE,
         ssl_key := some SSL_KEY_FILE }, [])
    else
      (sslUnconfigured, [])

/-- `websso_keys`: the three federation keys the generator collects. -/
def websso_keys : List String := ["protocol-name", "idp-name", "user-facing-name"]

/-- Environment of `WebSSOFIDServiceProviderContext.__call__`: per
`websso-fid-service-provider` relation id (in iteration order), the
related units' relation data, each an association list from string keys
to raw string values. -/
structure WebSSOEnv where
  relations : List (List (List (String × String)))
deriving DecidableEq

/-- The raw value of key `k` in a unit's relation data (only used under
the superset guard, so the default is never observed). -/
def rawVal (rdata : List (String × String)) (k : String) : String :=
  (rdata.lookup k).getD ""

/-- `set(rdata).issuperset(set(websso_keys))`. -/
def hasWebssoKeys (rdata : List (String × String)) : Bool :=
  websso_keys.all (fun k => (rdata.map Prod.fst).contains k)

/-- The dict comprehension of lines 322-323 for one unit: `json.loads`
(the `decode` parameter) applied to each of the three keys in order; the
first undecodable value raises. -/
def decodeProvider {J : Type} (decode : String → Except String J)
    (rdata : List (String × String)) : Except String (List (String × J)) :=
  websso_keys.mapM (fun k => (decode (rawVal rdata k)).map (fun v => (k, v)))

/-- The relation loop of lines 310-323: for each relation id take the
first related unit (empty unit lists are skipped via the swallowed
`IndexError`), and collect the decoded provider descriptor of every unit
whose data carries all three keys; a decoding failure raises
immediately. -/
def collectProviders {J : Type} (decode : String → Except String J) :
    List (List (List (String × String))) → Except String (List (List (String × J)))
  | [] => Except.ok []
  | units :: rest =>
      match units.head? with
      | none => collectProviders decode rest
      | some rdata =>
          if hasWebssoKeys rdata then
            match decodeProvider decode rdata with
            | Except.error e => Except.error e
            | Except.ok desc =>
                match collectProviders decode rest with
                | Except.error e => Except.error e
                | Except.ok l => Except.ok (desc :: l)
          else collectProviders decode rest

/-- `WebSSOFIDServiceProviderContext.__call__` (lines 306-327):
`ctxt = {'websso_data': relations} if relations else {}` — the key is
absent (`none`) when no provider was collected. -/
def webssoCall {J : Type} (decode : String → Except String J) (env : WebSSOEnv) :
    Except String (Option (List (List (String × J)))) :=
  match collectProviders decode env.relations with
  | Except.error e => Except.error e
  | Except.ok rels => Except.ok (if rels.isEmpty then none else some rels)

/-- Specification-side reformulation: the provider descriptors collected
in relation-id iteration order, assuming every qualifying unit's values
decode. -/
def collectSpec {J : Type} (decode : String → Except String J) (env : WebSSOEnv) :
    List (List (String × J)) :=
  env.relations.filterMap (fun units =>
    match units.head? with
    | none => none
    | some rdata =>
        if hasWebssoKeys rdata then
          match decodeProvider decode rdata with
          | Except.ok desc => some desc
          | Except.error _ => none
        else none)

/-- Concrete relation data supplying all three federation keys, each with
an empty value (the empty string is not decodable JSON). -/
def rdataBadJson : List (String × String) :=
  [("protocol-name", ""), ("idp-name", ""), ("user-facing-name", "")]

/-- Concrete federation environment with one unit carrying undecodable
values. -/
def envBadJson : WebSSOEnv := { relations := [[rdataBadJson]] }

/-- A `json.loads` stand-in consistent with the counterexample input:
Python 2's `json.loads('')` raises `ValueError: No JSON object could be
decoded`. -/
def decodeFailEmpty : String → Except String String :=
  fun s => if s.isEmpty then Except.error "No JSON object could be decoded"
           else Except.ok s

/-- Concrete provider data: all three keys plus an extra one. -/
def rdataProv1 : List (String × String) :=
  [("protocol-name", "mapped"), ("idp-name", "idp1"),
   ("user-facing-name", "IDP One"), ("extra", "x")]

/-- Concrete provider data from a second relation id. -/
def rdataProv2 : List (String × String) :=
  [("idp-name", "idp2"), ("protocol-name", "mapped"),
   ("user-facing-name", "IDP Two")]

/-- Concrete relation data missing `user-facing-name`. -/
def rdataMissing : List (String × String) :=
  [("protocol-name", "mapped"), ("idp-name", "idp3")]

/-- Concrete federation environment: two qualifying units, one unit-less
relation id and one unit missing a key. -/
def envProviders : WebSSOEnv :=
  { relations := [[rdataProv1], [], [rdataMissing], [rdataProv2]] }

/-- Decode stand-in for states whose values all decode. -/
def decodeOk : String → Except String String := fun s => Except.ok s

/-- The value space of the dictionary returned by
`HorizonContext.__call__`: Python `None`, a boolean, or a string. -/
inductive HVal
  | vnull
  | vb (b : Bool)
  | vs (s : String)
deriving DecidableEq

/-- A possibly-absent string configuration value as a dictionary value:
`config(...)` yields `None` for an unset option. -/
def ovs : Option String → HVal
  | none => HVal.vnull
  | some s => HVal.vs s

/-- A possibly-absent boolean configuration value as a dictionary value. -/
def ovb : Option Bool → HVal
  | none => HVal.vnull
  | some b => HVal.vb b

/-- Structural embedding of Python `str.lower()`. -/
def pyLower (s : String) : String := String.mk (s.toList.map Char.toLower)

/-- Structural embedding of Python `str.strip()`. -/
def pyStrip (s : String) : String :=
  String.mk
    (((s.toList.dropWhile Char.isWhitespace).reverse.dropWhile
      Char.isWhitespace).reverse)

/-- `charmhelpers.core.strutils.bool_from_string`: a non-string (absent)
value raises `ValueError`; otherwise the stripped, lower-cased string is
matched against the fixed truthy/falsy vocabularies, anything else
raising `ValueError`. -/
def bool_from_string (value : Option String) : Except String Bool :=
  match value with
  | none => Except.error "Unable to interpret non-string value as boolean"
  | some s =>
      if pyLower (pyStrip s) ∈ ["y", "yes", "true", "t", "on"] then
        Except.ok true
      else if pyLower (pyStrip s) ∈ ["n", "no", "false", "f", "off"] then
        Except.ok false
      else
        Except.error ("Unable to interpret string value " ++ s ++ " as boolean")

/-- The configuration options read by `HorizonContext.__call__`.
String-typed options are `Option String`, boolean-typed options
`Option Bool`; `none` models an unset option (`config` returns `None`). -/
structure HorizonCfg where
  offline_compression : Option String
  debug : Option String
  customization_module : Option String
  default_role : Option String
  webroot : Option String
  ubuntu_theme : Option String
  default_theme : Option String
  custom_theme : Option String
  secret : Option String
  profile : Option String
  neutron_network_dvr : Option Bool
  neutron_network_l3ha : Option Bool
  neutron_network_lb : Option Bool
  neutron_network_firewall : Option Bool
  neutron_network_vpn : Option Bool
  cinder_backup : Option Bool
  allow_password_autocompletion : Option Bool
  password_retrieve : Option Bool
  default_domain : Option String
  default_create_volume : Option Bool
  image_formats : Option String
deriving DecidableEq

/-- The keys of the dictionary built by `HorizonContext.__call__`, in
source order. -/
def horizonKeys : List String :=
  ["compress_offline", "debug", "customization_module", "default_role",
   "webroot", "ubuntu_theme", "default_theme", "custom_theme", "secret",
   "support_profile", "neutron_network_dvr", "neutron_network_l3ha",
   "neutron_network_lb", "neutron_network_firewall", "neutron_network_vpn",
   "cinder_backup", "allow_password_autocompletion", "password_retrieve",
   "default_domain", "multi_domain", "default_create_volume",
   "image_formats"]

/-- `HorizonContext.__call__` (lines 177-207): the full flat dictionary.
`bool_from_string` raises on its three options when they do not parse;
`webroot` falls back to `'/'` and `secret` to a fresh `pwgen()` password
(the `pw` parameter) when falsy; `support_profile` is the profile iff it
is `'cisco'`, else `None`; `multi_domain` is true iff no default domain
is configured.  Every key is always present. -/
def horizonDict (cfg : HorizonCfg) (pw : String) (compress debugVal ubuntu : Bool) :
    List (String × HVal) :=
  [("compress_offline", HVal.vb compress),
   ("debug", HVal.vb debugVal),
   ("customization_module", ovs cfg.customization_module),
   ("default_role", ovs cfg.default_role),
   ("webroot", HVal.vs (if truthy cfg.webroot then pyStr cfg.webroot else "/")),
   ("ubuntu_theme", HVal.vb ubuntu),
   ("default_theme", ovs cfg.default_theme),
   ("custom_theme", ovs cfg.custom_theme),
   ("secret", HVal.vs (if truthy cfg.secret then pyStr cfg.secret else pw)),
   ("support_profile",
    if cfg.profile = some "cisco" then ovs cfg.profile else HVal.vnull),
   ("neutron_network_dvr", ovb cfg.neutron_network_dvr),
   ("neutron_network_l3ha", ovb cfg.neutron_network_l3ha),
   ("neutron_network_lb", ovb cfg.neutron_network_lb),
   ("neutron_network_firewall", ovb cfg.neutron_network_firewall),
   ("neutron_network_vpn", ovb cfg.neutron_network_vpn),
   ("cinder_backup", ovb cfg.cinder_backup),
   ("allow_password_autocompletion", ovb cfg.allow_password_autocompletion),
   ("password_retrieve", ovb cfg.password_retrieve),
   ("default_domain", ovs cfg.default_domain),
   ("multi_domain", HVal.vb (!truthy cfg.default_domain)),
   ("default_create_volume", ovb cfg.default_create_volume),
   ("image_formats", ovs cfg.image_formats)]

/-- The three `bool_from_string` conversions followed by the dictionary
construction; the first conversion failure raises. -/
def horizonCall (cfg : HorizonCfg) (pw : String) : Except String (List (String × HVal)) :=
  match bool_from_string cfg.offline_compression with
  | Except.error e => Except.error e
  | Except.ok compress =>
  match bool_from_string cfg.debug with
  | Except.error e => Except.error e
  | Except.ok debugVal =>
  match bool_from_string cfg.ubuntu_theme with
  | Except.error e => Except.error e
  | Except.ok ubuntu => Except.ok (horizonDict cfg pw compress debugVal ubuntu)

/-- Key lookup on the result of `horizonCall` (an errored call has no
keys). -/
def lookupOk (r : Except String (List (String × HVal))) (k : String) : Option HVal :=
  match r with
  | Except.ok m => m.lookup k
  | Except.error _ => none

/-- Concrete configuration state: the three boolean-string options set to
valid booleans, every optional value absent. -/
def cfgAllAbsent : HorizonCfg :=
  { offline_compression := some "no", debug := some "no",
    customization_module := none, default_role := none, webroot := none,
    ubuntu_theme := some "yes", default_theme := none, custom_theme := none,
    secret := none, profile := none, neutron_network_dvr := none,
    neutron_network_l3ha := none, neutron_network_lb := none,
    neutron_network_firewall := none, neutron_network_vpn := none,
    cinder_backup := none, allow_password_autocompletion := none,
    password_retrieve := none, default_domain := none,
    default_create_volume := none, image_formats := none }

/-- Concrete Apache environment: enforcement requested, no resolvable
SSL material. -/
def envApacheNoCert : ApacheEnv :=
  { enforce_ssl_cfg := true, hsts_max_age_seconds := none,
    custom_theme := none, ssl_cert := none, ssl_key := none }

/-- Concrete SSL environment on the local-authority path (one
`certificates` relation id with zero units) with no CA certificate. -/
def envSSLNoCA : SSLEnv :=
  { cert_rel_units := [[]], ca_cert := none, ssl_cert := some "CERT",
    ssl_key := some "KEY", cert_file_exists := false,
    key_file_exists := false, b64 := fun s => s }

end HorizonCtx

namespace HorizonCtx

/-- C2: for every endpoint-type string, `normalize` returns exactly the
member of the fixed bijection selected by the input's upper-casing, and
raises a reported error for every other input (it never substitutes a
default). -/
theorem normalize_fixed_bijection_or_error (s : String) :
    normalize s =
      if s.toUpper = "PUBLICURL" then Except.ok "publicURL"
      else if s.toUpper = "INTERNALURL" then Except.ok "internalURL"
      else if s.toUpper = "ADMINURL" then Except.ok "adminURL"
      else Except.error (normalizeErr s) := by
  by_cases h1 : s.toUpper = "PUBLICURL"
  · simp [normalize, VALID_ENDPOINT_TYPES, List.lookup, h1]
    decide
  · by_cases h2 : s.toUpper = "INTERNALURL"
    · simp [normalize, VALID_ENDPOINT_TYPES, List.lookup, h1, h2]
      decide
    · by_cases h3 : s.toUpper = "ADMINURL"
      · simp [normalize, VALID_ENDPOINT_TYPES, List.lookup, h1, h2, h3]
        decide
      · have e1 : (s.toUpper == "PUBLICURL") = false := by simp [h1]
        have e2 : (s.toUpper == "INTERNALURL") = false := by simp [h2]
        have e3 : (s.toUpper == "ADMINURL") = false := by simp [h3]
        simp [normalize, VALID_ENDPOINT_TYPES, List.lookup, h1, h2, h3, e1, e2, e3]

/-- The relation-loop base after processing a list of records, starting
from an arbitrary state: an already-set base is never overwritten, and an
unset base becomes the first complete record's extracted context. -/
theorem foldl_idStep_base (env : IdEnv) :
    ∀ (l : List IdRData) (st : IdLoopState),
      (l.foldl (idStep env) st).base =
        (match st.base with
         | some b => some b
         | none =>
             l.findSome? (fun rd =>
               if context_complete (extractLocalCtxt env rd) then
                 some (extractLocalCtxt env rd)
               else none))
  | [], st => by cases h : st.base <;> simp [h]
  | rd :: l, st => by
      rw [List.foldl_cons, foldl_idStep_base env l, List.findSome?_cons]
      by_cases hc : context_complete (extractLocalCtxt env rd) = true
      · cases h : st.base <;> simp [idStep, hc, h]
      · have hc' : context_complete (extractLocalCtxt env rd) = false :=
          Bool.eq_false_iff.mpr hc
        cases h : st.base <;> simp [idStep, hc', h]

/-- The loop's base is the first complete record's context. -/
theorem idLoop_base (env : IdEnv) : (idLoop env).base = firstComplete env := by
  rw [idLoop, firstComplete, foldl_idStep_base env]

/-- The base of any context returned by `idCall` is the loop's base. -/
theorem idCall_base (env : IdEnv) (ctxt : IdCtxt)
    (h : idCall env = Except.ok ctxt) : ctxt.base = (idLoop env).base := by
  unfold idCall at h
  by_cases ht : truthy env.endpoint_type = true
  · rw [if_pos ht] at h
    cases hm : ((pyStr env.endpoint_type).splitOn ",").mapM normalize with
    | error e => rw [hm] at h; cases h
    | ok eps =>
        rw [hm] at h
        rw [← (Except.ok.injEq _ _).mp h]
  · rw [if_neg ht] at h
    rw [← (Except.ok.injEq _ _).mp h]

/-- `findSome?` returns the unique value produced on a list where every
producing element yields the same value. -/
theorem findSome?_eq_of_unique {α β : Type} (f : α → Option β) :
    ∀ (l : List α) (a : α) (b : β), a ∈ l → f a = some b →
      (∀ a' ∈ l, ∀ b', f a' = some b' → b' = b) →
      l.findSome? f = some b
  | [], a, b, ha, _, _ => absurd ha (List.not_mem_nil a)
  | x :: l, a, b, ha, hfa, huniq => by
      rw [List.findSome?_cons]
      cases hfx : f x with
      | some b' =>
          simp only []
          rw [huniq x (List.mem_cons_self x l) b' hfx]
      | none =>
          simp only []
          rcases List.mem_cons.mp ha with rfl | ha'
          · rw [hfx] at hfa; cases hfa
          · exact findSome?_eq_of_unique f l a b ha' hfa
              (fun a' ha'' b' hfb' => huniq a' (List.mem_cons_of_mem x ha'') b' hfb')

/-- C1: the first record that passes the completeness check becomes the
returned base context and no later record overwrites it; in particular,
when exactly one extracted context among the records is complete, the
returned base context is exactly that record's extracted fields, wherever
the incomplete records appear in the iteration order. -/
theorem identity_first_complete_record_wins (env : IdEnv) (rd : IdRData)
    (hmem : rd ∈ env.relations.flatten)
    (hc : context_complete (extractLocalCtxt env rd) = true)
    (huniq : ∀ rd' ∈ env.relations.flatten,
      context_complete (extractLocalCtxt env rd') = true →
      extractLocalCtxt env rd' = extractLocalCtxt env rd) :
    (idLoop env).base = firstComplete env ∧
    (idLoop env).base = some (extractLocalCtxt env rd) ∧
    ∀ ctxt, idCall env = Except.ok ctxt →
      ctxt.base = some (extractLocalCtxt env rd) := by
  have hfs : env.relations.flatten.findSome? (fun rd' =>
      if context_complete (extractLocalCtxt env rd') then
        some (extractLocalCtxt env rd')
      else none) = some (extractLocalCtxt env rd) := by
    apply findSome?_eq_of_unique _ _ rd
    · exact hmem
    · rw [if_pos hc]
    · intro rd' hmem' b' hfb'
      by_cases hc' : context_complete (extractLocalCtxt env rd') = true
      · rw [if_pos hc'] at hfb'
        have := huniq rd' hmem' hc'
        injection hfb' with h'
        rw [← h', this]
      · rw [if_neg hc'] at hfb'; cases hfb'
  have hbase : (idLoop env).base = some (extractLocalCtxt env rd) := by
    rw [idLoop_base, firstComplete, hfs]
  exact ⟨idLoop_base env, hbase, fun ctxt h => by rw [idCall_base env ctxt h, hbase]⟩

/-- Witness for C1: on a concrete relation state with one complete record
in the middle of incomplete ones, the returned base context is that
record's extracted fields. -/
theorem identity_first_complete_record_wins_witness :
    (idLoop envFirstWins).base = some (extractLocalCtxt envFirstWins rdComplete1) :=
  (identity_first_complete_record_wins envFirstWins rdComplete1
    (by decide) (by decide) (by decide)).2.1

/-- Counterexample to C3: a record that has both `service_host` and
`service_port` (truthy) is nevertheless discarded as incomplete, because
its `api_version` is `'3'`, no default domain is configured and it
carries no `admin_domain_id` — so absence of host or port is not the
only rejection condition. -/
theorem identity_completeness_counterexample :
    truthy rdV3NoAdmin.service_host = true ∧
    truthy rdV3NoAdmin.service_port = true ∧
    context_complete (extractLocalCtxt envV3 rdV3NoAdmin) = false ∧
    (idLoop envV3).base = none := by
  decide

/-- The extracted `service_protocol` is never empty: the `or 'http'`
default fires for an absent or empty relation value. -/
theorem extract_protocol_ne_empty (env : IdEnv) (rd : IdRData) :
    (extractLocalCtxt env rd).service_protocol ≠ "" := by
  unfold extractLocalCtxt
  cases hp : rd.service_protocol with
  | none => simp
  | some p =>
      simp only []
      by_cases he : p.isEmpty = true
      · rw [if_pos he]; simp
      · rw [if_neg he]
        exact fun hpe => he ((String.isEmpty_iff p).mpr hpe)

/-- Projection: the extracted port is the raw relation port. -/
theorem extract_port (env : IdEnv) (rd : IdRData) :
    (extractLocalCtxt env rd).service_port = rd.service_port := rfl

/-- Projection: the extracted host is the (possibly bracketed) host. -/
theorem extract_host (env : IdEnv) (rd : IdRData) :
    (extractLocalCtxt env rd).service_host = servHost env rd := rfl

/-- Projection: the extracted api version is the relation value defaulted
to `'2'` when the key is absent. -/
theorem extract_api (env : IdEnv) (rd : IdRData) :
    (extractLocalCtxt env rd).api_version = rd.api_version.getD "2" := rfl

/-- Projection: the `admin_domain_id` key is added iff the api version is
`'3'` and no default domain is configured. -/
theorem extract_admin (env : IdEnv) (rd : IdRData) :
    (extractLocalCtxt env rd).admin_domain_id =
      (if rd.api_version.getD "2" = "3" ∧ truthy env.default_domain = false then
        some rd.admin_domain_id
      else none) := rfl

/-- C3 amended: `service_protocol` defaults to `'http'` and `api_version`
defaults to `'2'` (when the key is absent) before the completeness check,
and the check then rejects a record iff its host or port is absent or
empty, its `api_version` is present but empty, or its `api_version` is
`'3'`, no default domain is configured, and it has no truthy
`admin_domain_id`. -/
theorem identity_completeness_amended (env : IdEnv) (rd : IdRData) :
    (context_complete (extractLocalCtxt env rd) = true ↔
      (truthy (servHost env rd) = true ∧ truthy rd.service_port = true ∧
       rd.api_version ≠ some "" ∧
       ((rd.api_version.getD "2" = "3" ∧ truthy env.default_domain = false) →
         truthy rd.admin_domain_id = true))) ∧
    (extractLocalCtxt env rd).service_protocol ≠ "" ∧
    (rd.api_version = none → (extractLocalCtxt env rd).api_version = "2") := by
  refine ⟨?_, extract_protocol_ne_empty env rd, ?_⟩
  · have hproto : (extractLocalCtxt env rd).service_protocol.isEmpty = false := by
      cases he : (extractLocalCtxt env rd).service_protocol.isEmpty
      · rfl
      · exact absurd ((String.isEmpty_iff _).mp he) (extract_protocol_ne_empty env rd)
    have hapi : ((!(rd.api_version.getD "2").isEmpty) = true) ↔
        rd.api_version ≠ some "" := by
      cases ha : rd.api_version with
      | none => decide
      | some a =>
          simp only [Option.getD_some, ne_eq, Option.some.injEq, Bool.not_eq_true']
          constructor
          · intro h he
            rw [he] at h
            exact absurd h (by decide)
          · intro h
            cases hae : a.isEmpty
            · rfl
            · exact absurd ((String.isEmpty_iff a).mp hae) h
    rw [context_complete, extract_port, extract_host, extract_api, extract_admin,
      hproto]
    by_cases hadm : rd.api_version.getD "2" = "3" ∧ truthy env.default_domain = false
    · rw [if_pos hadm]
      simp only [Bool.not_false, Bool.and_true, Bool.and_eq_true]
      constructor
      · rintro ⟨⟨⟨hp, hh⟩, hav⟩, hadmv⟩
        exact ⟨hh, hp, hapi.mp hav, fun _ => hadmv⟩
      · rintro ⟨hh, hp, hav, hadmv⟩
        exact ⟨⟨⟨hp, hh⟩, hapi.mpr hav⟩, hadmv hadm⟩
    · rw [if_neg hadm]
      simp only [Bool.not_false, Bool.and_true, Bool.and_eq_true]
      constructor
      · rintro ⟨⟨hp, hh⟩, hav⟩
        exact ⟨hh, hp, hapi.mp hav, fun hc => absurd hc hadm⟩
      · rintro ⟨hh, hp, hav, _⟩
        exact ⟨⟨hp, hh⟩, hapi.mpr hav⟩
  · intro ha
    rw [extract_api, ha]
    rfl

/-- Witness for C3 amended: the characterization evaluated on the
concrete api-version-3 record. -/
theorem identity_completeness_amended_witness :
    context_complete (extractLocalCtxt envV3 rdV3NoAdmin) = false := by
  have h := (identity_completeness_amended envV3 rdV3NoAdmin).1
  cases hcc : context_complete (extractLocalCtxt envV3 rdV3NoAdmin)
  · rfl
  · have := (h.mp hcc).2.2.2 (by decide)
    exact absurd this (by decide)

/-- Folding a set-insertion over a list adds exactly the list's elements. -/
theorem foldl_insert_toFinset {α : Type} [DecidableEq α] :
    ∀ (l : List α) (s : Finset α),
      l.foldl (fun s a => insert a s) s = s ∪ l.toFinset
  | [], s => by simp
  | a :: l, s => by
      rw [List.foldl_cons, foldl_insert_toFinset l, List.toFinset_cons,
        Finset.insert_union, Finset.union_insert]

/-- The `(endpoint, region)` pairs one loop iteration contributes. -/
def recordPairs (env : IdEnv) (rd : IdRData) : List (String × String) :=
  if context_complete (extractLocalCtxt env rd) then
    match rd.region with
    | some r =>
        (pySplitWhitespace r).map
          (fun reg => (endpointURL (extractLocalCtxt env rd), reg))
    | none => []
  else []

/-- One loop iteration unions exactly that record's pairs into the set. -/
theorem idStep_regions (env : IdEnv) (st : IdLoopState) (rd : IdRData) :
    (idStep env st rd).regions = st.regions ∪ (recordPairs env rd).toFinset := by
  unfold idStep recordPairs
  by_cases hc : context_complete (extractLocalCtxt env rd) = true
  · rw [if_pos hc, if_pos hc]
    cases hr : rd.region with
    | none => simp
    | some r =>
        simp only []
        rw [← List.foldl_map (fun reg => (endpointURL (extractLocalCtxt env rd), reg))
          (fun s x => insert x s), foldl_insert_toFinset]
  · rw [if_neg hc, if_neg hc]
    simp

/-- The relation loop accumulates exactly the pairs of all records. -/
theorem foldl_idStep_regions (env : IdEnv) :
    ∀ (l : List IdRData) (st : IdLoopState),
      (l.foldl (idStep env) st).regions =
        st.regions ∪ (l.flatMap (recordPairs env)).toFinset
  | [], st => by simp
  | rd :: l, st => by
      rw [List.foldl_cons, foldl_idStep_regions env l, idStep_regions,
        List.flatMap_cons, List.toFinset_append, Finset.union_assoc]

/-- The loop's region set is the set of pairs of all complete
region-carrying records. -/
theorem idLoop_regions (env : IdEnv) :
    (idLoop env).regions = (regionPairs env).toFinset := by
  rw [idLoop, foldl_idStep_regions, regionPairs]
  exact Finset.empty_union _

/-- The `regions` key of any context returned by `idCall` is
`idRegionsOpt`. -/
theorem idCall_regions (env : IdEnv) (ctxt : IdCtxt)
    (h : idCall env = Except.ok ctxt) : ctxt.regions = idRegionsOpt env := by
  unfold idCall at h
  by_cases ht : truthy env.endpoint_type = true
  · rw [if_pos ht] at h
    cases hm : ((pyStr env.endpoint_type).splitOn ",").mapM normalize with
    | error e => rw [hm] at h; cases h
    | ok eps =>
        rw [hm] at h
        rw [← (Except.ok.injEq _ _).mp h]
  · rw [if_neg ht] at h
    rw [← (Except.ok.injEq _ _).mp h]

/-- Counterexample to C4: a record that carries a region value (and a
host and port, so the claim's synthetic endpoint URL is well defined for
it) contributes nothing because it is incomplete; consequently, with one
complete and one incomplete region-carrying record — two distinct
(endpoint, region) pairs under the claim's reading — the returned context
has no `regions` key at all. -/
theorem identity_regions_counterexample :
    rdRegionIncomplete.region = some "RegionTwo" ∧
    truthy rdRegionIncomplete.service_host = true ∧
    truthy rdRegionIncomplete.service_port = true ∧
    (endpointURL (extractLocalCtxt envRegions rdRegionIncomplete), "RegionTwo") ∉
      (idLoop envRegions).regions ∧
    idCall envRegions =
      Except.ok
        { base := some (extractLocalCtxt envRegions rdRegionComplete)
          regions := none
          primary_endpoint := none
          secondary_endpoint := none } := by
  refine ⟨rfl, rfl, rfl, by decide, ?_⟩
  rfl

/-- C4 amended: the deduplicating region set is fed by every complete
record that carries a region value (incomplete records contribute
nothing), and the returned context carries a `regions` key iff strictly
more than one distinct (endpoint, region) pair was accumulated, in which
case it is the sorted pair list. -/
theorem identity_regions_amended (env : IdEnv) :
    (idLoop env).regions = (regionPairs env).toFinset ∧
    ∀ ctxt, idCall env = Except.ok ctxt →
      ctxt.regions =
        (if 1 < (regionPairs env).toFinset.card then
          some (Finset.sort pairLe (regionPairs env).toFinset)
        else none) := by
  refine ⟨idLoop_regions env, fun ctxt h => ?_⟩
  rw [idCall_regions env ctxt h, idRegionsOpt, idLoop_regions]

/-- Witness for C4 amended: evaluated on the concrete two-record state. -/
theorem identity_regions_amended_witness :
    (idLoop envRegions).regions = (regionPairs envRegions).toFinset :=
  (identity_regions_amended envRegions).1

/-- `pyStrLt` is asymmetric. -/
theorem pyStrLt_asymm : ∀ x y : List Char, pyStrLt x y = true → pyStrLt y x = false
  | [], [], h => by cases h
  | [], _ :: _, _ => rfl
  | _ :: _, [], h => by cases h
  | a :: as, b :: bs, h => by
      unfold pyStrLt at h ⊢
      by_cases hab : a < b
      · rw [if_neg (lt_asymm hab), if_pos hab]
      · by_cases hba : b < a
        · rw [if_neg hab, if_pos hba] at h
          cases h
        · rw [if_neg hab, if_neg hba] at h
          rw [if_neg hba, if_neg hab]
          exact pyStrLt_asymm as bs h

/-- `pyStrLt` is transitive. -/
theorem pyStrLt_trans : ∀ x y z : List Char,
    pyStrLt x y = true → pyStrLt y z = true → pyStrLt x z = true
  | [], [], _, h1, _ => by cases h1
  | [], _ :: _, [], _, h2 => by cases h2
  | [], _ :: _, _ :: _, _, _ => rfl
  | _ :: _, [], _, h1, _ => by cases h1
  | _ :: _, _ :: _, [], _, h2 => by cases h2
  | a :: as, b :: bs, c :: cs, h1, h2 => by
      unfold pyStrLt at h1 h2 ⊢
      by_cases hab : a < b
      · by_cases hbc : b < c
        · rw [if_pos (lt_trans hab hbc)]
        · by_cases hcb : c < b
          · rw [if_neg hbc, if_pos hcb] at h2
            cases h2
          · have hbc2 : b = c := le_antisymm (not_lt.mp hcb) (not_lt.mp hbc)
            rw [if_pos (hbc2 ▸ hab : a < c)]
      · by_cases hba : b < a
        · rw [if_neg hab, if_pos hba] at h1
          cases h1
        · have hab2 : a = b := le_antisymm (not_lt.mp hba) (not_lt.mp hab)
          rw [if_neg hab, if_neg hba] at h1
          by_cases hbc : b < c
          · rw [if_pos (hab2 ▸ hbc : a < c)]
          · by_cases hcb : c < b
            · rw [if_neg hbc, if_pos hcb] at h2
              cases h2
            · have hbc2 : b = c := le_antisymm (not_lt.mp hcb) (not_lt.mp hbc)
              rw [if_neg hbc, if_neg hcb] at h2
              have hac : a = c := hab2.trans hbc2
              rw [if_neg (show ¬a < c by rw [hac]; exact lt_irrefl c),
                if_neg (show ¬c < a by rw [hac]; exact lt_irrefl c)]
              exact pyStrLt_trans as bs cs h1 h2

/-- `pyStrLt` satisfies trichotomy. -/
theorem pyStrLt_trichot : ∀ x y : List Char,
    pyStrLt x y = true ∨ pyStrLt y x = true ∨ x = y
  | [], [] => Or.inr (Or.inr rfl)
  | [], _ :: _ => Or.inl rfl
  | _ :: _, [] => Or.inr (Or.inl rfl)
  | a :: as, b :: bs => by
      rcases lt_trichotomy a b with h | h | h
      · exact Or.inl (by unfold pyStrLt; rw [if_pos h])
      · subst h
        rcases pyStrLt_trichot as bs with h2 | h2 | h2
        · refine Or.inl ?_
          unfold pyStrLt
          rw [if_neg (lt_irrefl a), if_neg (lt_irrefl a)]
          exact h2
        · refine Or.inr (Or.inl ?_)
          unfold pyStrLt
          rw [if_neg (lt_irrefl a), if_neg (lt_irrefl a)]
          exact h2
        · exact Or.inr (Or.inr (by rw [h2]))
      · exact Or.inr (Or.inl (by unfold pyStrLt; rw [if_pos h]))

/-- `pyStrLe` is total. -/
theorem pyStrLe_total (s t : String) : pyStrLe s t = true ∨ pyStrLe t s = true := by
  unfold pyStrLe
  cases hst : pyStrLt t.toList s.toList
  · exact Or.inl rfl
  · exact Or.inr (by rw [pyStrLt_asymm _ _ hst]; rfl)

/-- `pyStrLe` is transitive. -/
theorem pyStrLe_trans {s t u : String}
    (h1 : pyStrLe s t = true) (h2 : pyStrLe t u = true) : pyStrLe s u = true := by
  unfold pyStrLe at h1 h2 ⊢
  rw [Bool.not_eq_true'] at h1 h2 ⊢
  cases hus : pyStrLt u.toList s.toList
  · rfl
  · rcases pyStrLt_trichot u.toList t.toList with h | h | h
    · rw [h] at h2
      cases h2
    · rw [pyStrLt_trans _ _ _ h hus] at h1
      cases h1
    · rw [h] at hus
      rw [hus] at h1
      cases h1

instance : IsTotal (String × PluginRData) prioLe :=
  ⟨fun a b => pyStrLe_total (prio a) (prio b)⟩

instance : IsTrans (String × PluginRData) prioLe :=
  ⟨fun _ _ _ hab hbc => pyStrLe_trans hab hbc⟩

/-- Two permuted lists both sorted by a string key under the Python
ordering are equal when the key values are pairwise distinct. -/
theorem eq_of_perm_of_sorted_key {α : Type} (key : α → String) (l₁ l₂ : List α)
    (hperm : l₁.Perm l₂)
    (hs₁ : List.Sorted (fun a b => pyStrLe (key a) (key b) = true) l₁)
    (hs₂ : List.Sorted (fun a b => pyStrLe (key a) (key b) = true) l₂)
    (hd : l₁.Pairwise (fun a b => key a ≠ key b)) : l₁ = l₂ := by
  have hsymm : ∀ {x y : α}, key x ≠ key y → key y ≠ key x :=
    fun h e => h e.symm
  have hd₂ : l₂.Pairwise (fun a b => key a ≠ key b) :=
    (hperm.pairwise_iff hsymm).mp hd
  have hstrict : ∀ {a b : α},
      pyStrLe (key a) (key b) = true ∧ key a ≠ key b →
      pyStrLt (key a).toList (key b).toList = true := by
    rintro a b ⟨hle, hne⟩
    rcases pyStrLt_trichot (key a).toList (key b).toList with h | h | h
    · exact h
    · unfold pyStrLe at hle
      rw [h] at hle
      exact absurd hle (by decide)
    · exact absurd (String.ext h) hne
  have hs₁' : List.Sorted
      (fun a b => pyStrLt (key a).toList (key b).toList = true) l₁ :=
    (hs₁.and hd).imp (fun h => hstrict h)
  have hs₂' : List.Sorted
      (fun a b => pyStrLt (key a).toList (key b).toList = true) l₂ :=
    (hs₂.and hd₂).imp (fun h => hstrict h)
  exact @List.eq_of_perm_of_sorted α
    (fun a b => pyStrLt (key a).toList (key b).toList = true)
    ⟨fun a b h1 h2 => by rw [pyStrLt_asymm _ _ h1] at h2; cases h2⟩
    l₁ l₂ hperm hs₁' hs₂'

/-- Counterexample to C5: with two collected fragments of distinct
numeric priorities 9 and 10, the returned settings sequence renders the
priority-10 fragment before the priority-9 one — relation data values
are strings and `sorted` compares the priority strings
lexicographically (`'10' < '9'`), not by ascending numeric value. -/
theorem plugin_settings_numeric_counterexample :
    fragNine.2.priority = some "9" ∧ fragTen.2.priority = some "10" ∧
    collectFragments envNineTen = [fragNine, fragTen] ∧
    (localSettingsCall envNineTen).lookup "settings" =
      some [renderFragment fragTen, renderFragment fragNine] := by
  decide

/-- C5 amended: the value bound to the `settings` key is the rendered
fragments (`# unit` header plus verbatim text) sorted ascending by the
lexicographic order of the priority *string* (not its numeric value),
and for collections with pairwise distinct priority strings this output
is the same for every collection order. -/
theorem plugin_settings_priority_order (env env' : PluginEnv)
    (hperm : (collectFragments env).Perm (collectFragments env'))
    (hdist : (collectFragments env).Pairwise (fun a b => prio a ≠ prio b)) :
    List.Sorted prioLe (sortedFragments env) ∧
    (localSettingsCall env).lookup "settings" =
      some ((sortedFragments env).map renderFragment) ∧
    sortedFragments env = sortedFragments env' ∧
    localSettingsCall env = localSettingsCall env' := by
  have hs : List.Sorted prioLe (sortedFragments env) :=
    List.sorted_insertionSort prioLe (collectFragments env)
  have hs' : List.Sorted prioLe (sortedFragments env') :=
    List.sorted_insertionSort prioLe (collectFragments env')
  have hdist₁ : (sortedFragments env).Pairwise (fun a b => prio a ≠ prio b) :=
    ((List.perm_insertionSort prioLe (collectFragments env)).pairwise_iff
      (fun h e => h e.symm)).mpr hdist
  have hp : (sortedFragments env).Perm (sortedFragments env') :=
    ((List.perm_insertionSort prioLe (collectFragments env)).trans hperm).trans
      (List.perm_insertionSort prioLe (collectFragments env')).symm
  have hsA : List.Sorted (fun a b => pyStrLe (prio a) (prio b) = true)
      (sortedFragments env) := hs
  have hsB : List.Sorted (fun a b => pyStrLe (prio a) (prio b) = true)
      (sortedFragments env') := hs'
  have heq : sortedFragments env = sortedFragments env' :=
    eq_of_perm_of_sorted_key prio _ _ hp hsA hsB hdist₁
  exact ⟨hs, rfl, heq, by rw [localSettingsCall, heq, localSettingsCall]⟩

/-- Witness for C5: the two concrete collection orders of the same two
distinct-priority fragments produce the same settings value. -/
theorem plugin_settings_priority_order_witness :
    List.Sorted prioLe (sortedFragments envPluginAB) ∧
    sortedFragments envPluginAB = sortedFragments envPluginBA :=
  ⟨(plugin_settings_priority_order envPluginAB envPluginBA
      (by decide) (by decide)).1,
   (plugin_settings_priority_order envPluginAB envPluginBA
      (by decide) (by decide)).2.2.1⟩

/-- `collectFragments` ignores relation ids with an empty unit list. -/
theorem collectFragments_filter (rels : List (List (String × PluginRData))) :
    collectFragments ⟨rels.filter (fun units => !units.isEmpty)⟩ =
      collectFragments ⟨rels⟩ := by
  unfold collectFragments
  induction rels with
  | nil => rfl
  | cons units rest ih =>
      show List.filterMap fragOfRid
          (List.filter (fun units => !units.isEmpty) (units :: rest)) = _
      rw [List.filter_cons]
      cases units with
      | nil =>
          rw [if_neg (by decide), ih, List.filterMap_cons]
          rfl
      | cons x xs =>
          rw [if_pos (show (!(x :: xs).isEmpty) = true from rfl),
            List.filterMap_cons, List.filterMap_cons, ih]

/-- C10: the returned mapping always binds `settings` to a list; the list
is empty when no relation carries both required keys; and relation ids
with zero related units are skipped without error (dropping them does not
change the result). -/
theorem plugin_settings_always_present (env : PluginEnv) :
    (localSettingsCall env).lookup "settings" =
      some ((sortedFragments env).map renderFragment) ∧
    ((∀ units ∈ env.relations, ∀ p ∈ units,
        ¬((p : String × PluginRData).2.local_settings.isSome = true ∧
          p.2.priority.isSome = true)) →
      (localSettingsCall env).lookup "settings" = some []) ∧
    localSettingsCall env =
      localSettingsCall ⟨env.relations.filter (fun units => !units.isEmpty)⟩ := by
  refine ⟨rfl, ?_, ?_⟩
  · intro hnone
    have hcf : collectFragments env = [] := by
      rw [collectFragments, List.filterMap_eq_nil_iff]
      intro units hu
      cases units with
      | nil => rfl
      | cons y ys =>
          obtain ⟨u, rd⟩ := y
          show fragOfRid ((u, rd) :: ys) = none
          rw [fragOfRid]
          simp only [List.head?_cons]
          rw [if_neg (hnone ((u, rd) :: ys) hu (u, rd) (List.mem_cons_self _ _))]
    have : sortedFragments env = [] := by
      rw [sortedFragments, hcf]
      rfl
    rw [localSettingsCall, this]
    rfl
  · have h := collectFragments_filter env.relations
    rw [localSettingsCall, localSettingsCall, sortedFragments, sortedFragments]
    rw [show (⟨env.relations⟩ : PluginEnv) = env from rfl] at h
    rw [h]

/-- Witness for C10: on a concrete state whose only records miss one of
the two required keys (and with a unit-less relation id), the settings
list is present and empty. -/
theorem plugin_settings_always_present_witness :
    (localSettingsCall
        ⟨[[], [("dashboard-plugin-c/0",
               { local_settings := some "C", priority := none })]]⟩).lookup
      "settings" = some [] :=
  (plugin_settings_always_present
    ⟨[[], [("dashboard-plugin-c/0",
           { local_settings := some "C", priority := none })]]⟩).2.1
    (by decide)

/-- C6: `enforce_ssl` is true iff enforcement is requested and both cert
and key are truthy; when enforcement is requested without material the
flag stays false and exactly the warning is logged; and a warning is only
ever logged in that situation. -/
theorem apache_enforce_ssl_flag (env : ApacheEnv) :
    (apacheCall env).1.enforce_ssl =
      (env.enforce_ssl_cfg && truthy env.ssl_cert && truthy env.ssl_key) ∧
    (env.enforce_ssl_cfg = true →
      (truthy env.ssl_cert && truthy env.ssl_key) = false →
      (apacheCall env).1.enforce_ssl = false ∧ (apacheCall env).2 = [apacheWarn]) ∧
    ((apacheCall env).2 ≠ [] →
      env.enforce_ssl_cfg = true ∧
      (truthy env.ssl_cert && truthy env.ssl_key) = false) := by
  unfold apacheCall
  by_cases he : env.enforce_ssl_cfg = true
  · by_cases hc : (truthy env.ssl_cert && truthy env.ssl_key) = true
    · rw [if_pos he, if_pos hc]
      refine ⟨by rw [he, Bool.true_and, hc], ?_, ?_⟩
      · intro _ hcf
        rw [hcf] at hc
        cases hc
      · intro hne
        exact absurd rfl hne
    · have hc' : (truthy env.ssl_cert && truthy env.ssl_key) = false :=
        Bool.eq_false_iff.mpr hc
      rw [if_pos he, if_neg hc]
      refine ⟨by rw [he, Bool.true_and, hc']; rfl, ?_, ?_⟩
      · exact fun _ _ => ⟨rfl, rfl⟩
      · exact fun _ => ⟨he, hc'⟩
  · have he' : env.enforce_ssl_cfg = false := Bool.eq_false_iff.mpr he
    rw [if_neg he]
    refine ⟨by rw [he', Bool.false_and, Bool.false_and]; rfl, ?_, ?_⟩
    · exact fun h => absurd h he
    · intro hne
      exact absurd rfl hne

/-- Witness for C6: enforcement requested with no cert or key resolvable
leaves the flag false and logs exactly the warning. -/
theorem apache_enforce_ssl_flag_witness :
    (apacheCall envApacheNoCert).1.enforce_ssl = false ∧
    (apacheCall envApacheNoCert).2 = [apacheWarn] :=
  (apache_enforce_ssl_flag envApacheNoCert).2.1 rfl (by decide)

/-- C7: on the local-authority path (no peer units on the `certificates`
relation): a falsy CA certificate yields exactly the unconfigured context
with no file-system event; a certificate or key file write happens only
when both pieces of material are truthy; and the full event trace shows
the key file's mode being restricted to `0600` immediately after the key
write. -/
theorem apache_ssl_local_authority (env : SSLEnv)
    (hloc : env.cert_rel_units.all (fun units => units.isEmpty) = true) :
    (truthy env.ca_cert = false → apacheSSLCall env = (sslUnconfigured, [])) ∧
    (∀ p d, FsEvent.writeFile p d ∈ (apacheSSLCall env).2 →
      truthy env.ssl_cert = true ∧ truthy env.ssl_key = true) ∧
    ((apacheSSLCall env).2 =
      if truthy env.ca_cert = false then []
      else if truthy env.ssl_cert && truthy env.ssl_key then
        [FsEvent.installCA (env.b64 (pyStr env.ca_cert)),
         FsEvent.writeFile "/etc/ssl/certs/dashboard.cert" (env.b64 (pyStr env.ssl_cert)),
         FsEvent.writeFile "/etc/ssl/private/dashboard.key" (env.b64 (pyStr env.ssl_key)),
         FsEvent.chmod "/etc/ssl/private/dashboard.key" 0o600]
      else [FsEvent.installCA (env.b64 (pyStr env.ca_cert))]) := by
  unfold apacheSSLCall
  rw [if_pos hloc]
  by_cases hca : truthy env.ca_cert = true
  · have hca' : ¬(truthy env.ca_cert = false) := by rw [hca]; decide
    by_cases hck : (truthy env.ssl_cert && truthy env.ssl_key) = true
    · rw [if_pos hca, if_pos hck]
      have hck2 := hck
      simp only [Bool.and_eq_true] at hck2
      refine ⟨fun hf => absurd hf hca', ?_, ?_⟩
      · exact fun _ _ _ => hck2
      · rw [if_neg hca', if_pos hck]
    · rw [if_pos hca, if_neg hck]
      refine ⟨fun hf => absurd hf hca', ?_, ?_⟩
      · intro p d hm
        rw [List.mem_singleton] at hm
        exact FsEvent.noConfusion hm
      · rw [if_neg hca', if_neg hck]
  · have hca' : truthy env.ca_cert = false := Bool.eq_false_iff.mpr hca
    rw [if_neg hca]
    refine ⟨fun _ => rfl, ?_, ?_⟩
    · intro p d hm
      exact absurd hm (List.not_mem_nil _)
    · rw [if_pos hca']

/-- Witness for C7: on the concrete local-authority state with no CA
certificate, the unconfigured context is returned and nothing is
written. -/
theorem apache_ssl_local_authority_witness :
    apacheSSLCall envSSLNoCA = (sslUnconfigured, []) :=
  (apache_ssl_local_authority envSSLNoCA (by decide)).1 rfl

/-- Counterexample to C8: a unit that supplies all three federation keys
but with values that do not decode as JSON makes the generator raise —
it does not return the empty mapping the claim prescribes for states
with no unit supplying all three keys with decodable values. -/
theorem websso_invalid_json_counterexample :
    hasWebssoKeys rdataBadJson = true ∧
    webssoCall decodeFailEmpty envBadJson =
      Except.error "No JSON object could be decoded" := by
  exact ⟨rfl, rfl⟩

/-- When every qualifying unit's values decode, the relation loop
collects exactly the specification-side provider list. -/
theorem collectProviders_ok {J : Type} (decode : String → Except String J) :
    ∀ rels : List (List (List (String × String))),
      (∀ units ∈ rels, ∀ rdata, units.head? = some rdata →
        hasWebssoKeys rdata = true → (decodeProvider decode rdata).isOk = true) →
      collectProviders decode rels = Except.ok (collectSpec decode ⟨rels⟩)
  | [], _ => rfl
  | units :: rest, hdec => by
      have ihrest := collectProviders_ok decode rest
        (fun u hu rdata hh hk => hdec u (List.mem_cons_of_mem units hu) rdata hh hk)
      cases hh : units.head? with
      | none =>
          simp only [collectProviders, hh, ihrest, collectSpec,
            List.filterMap_cons]
      | some rdata =>
          by_cases hk : hasWebssoKeys rdata = true
          · have hok := hdec units (List.mem_cons_self units rest) rdata hh hk
            cases hdp : decodeProvider decode rdata with
            | error e => rw [hdp] at hok; cases hok
            | ok desc =>
                simp only [collectProviders, hh, hk, if_true, hdp, ihrest,
                  collectSpec, List.filterMap_cons]
          · simp only [collectProviders, hh, if_neg hk, ihrest, collectSpec,
              List.filterMap_cons]

/-- C8 amended: provided every unit that supplies all three federation
keys also supplies decodable values (otherwise the generator raises),
the returned mapping carries the `websso_data` key iff at least one
provider was collected; otherwise the key is absent entirely — the value
is never an empty list; units missing a key contribute nothing, and
descriptors appear in relation-id iteration order. -/
theorem websso_amended {J : Type} (decode : String → Except String J)
    (env : WebSSOEnv)
    (hdec : ∀ units ∈ env.relations, ∀ rdata, units.head? = some rdata →
      hasWebssoKeys rdata = true → (decodeProvider decode rdata).isOk = true) :
    webssoCall decode env =
      Except.ok (if (collectSpec decode env).isEmpty then none
                 else some (collectSpec decode env)) ∧
    webssoCall decode env ≠ Except.ok (some ([] : List (List (String × J)))) := by
  have hcp : collectProviders decode env.relations =
      Except.ok (collectSpec decode env) :=
    collectProviders_ok decode env.relations hdec
  have h1 : webssoCall decode env =
      Except.ok (if (collectSpec decode env).isEmpty then none
                 else some (collectSpec decode env)) := by
    unfold webssoCall
    rw [hcp]
  refine ⟨h1, ?_⟩
  rw [h1]
  intro hcontra
  by_cases hemp : (collectSpec decode env).isEmpty = true
  · rw [if_pos hemp] at hcontra
    exact Option.noConfusion ((Except.ok.injEq _ _).mp hcontra)
  · rw [if_neg hemp] at hcontra
    have h2 := (Option.some.injEq _ _).mp ((Except.ok.injEq _ _).mp hcontra)
    exact hemp (by rw [h2]; rfl)

/-- Witness for C8 amended: the concrete four-relation state (two
qualifying units, one unit-less relation id, one unit missing a key)
returns exactly the two provider descriptors in relation-id order. -/
theorem websso_amended_witness :
    webssoCall decodeOk envProviders =
      Except.ok (if (collectSpec decodeOk envProviders).isEmpty then none
                 else some (collectSpec decodeOk envProviders)) ∧
    webssoCall decodeOk envProviders =
      Except.ok (some [[("protocol-name", "mapped"), ("idp-name", "idp1"),
                        ("user-facing-name", "IDP One")],
                       [("protocol-name", "mapped"), ("idp-name", "idp2"),
                        ("user-facing-name", "IDP Two")]]) := by
  have h := (websso_amended decodeOk envProviders (by
    intro units hu rdata hh hk
    simp only [envProviders, List.mem_cons, List.not_mem_nil, or_false] at hu
    rcases hu with rfl | rfl | rfl | rfl
    · injection hh with h2
      rw [← h2]
      decide
    · cases hh
    · injection hh with h2
      rw [← h2]
      decide
    · injection hh with h2
      rw [← h2]
      decide)).1
  exact ⟨h, by rw [h]; rfl⟩

/-- Counterexample to C9: with every optional configuration value absent
(and the boolean-string options well formed), `HorizonContext` does not
omit the keys of the absent values — `customization_module` is present
and bound to `None`. -/
theorem horizon_absent_key_counterexample :
    cfgAllAbsent.customization_module = none ∧
    (horizonCall cfgAllAbsent "generated-pw").isOk = true ∧
    lookupOk (horizonCall cfgAllAbsent "generated-pw") "customization_module" =
      some HVal.vnull := by
  decide

/-- C9 amended: when the three boolean-string options parse, a context
generator does not raise for absent optional configuration, but the
corresponding key is not omitted: `HorizonContext` always returns every
key of its dictionary, binding the key of an absent optional value to
`None` (shown for `customization_module`). -/
theorem horizon_optional_absent_amended (cfg : HorizonCfg) (pw : String)
    (h1 : (bool_from_string cfg.offline_compression).isOk = true)
    (h2 : (bool_from_string cfg.debug).isOk = true)
    (h3 : (bool_from_string cfg.ubuntu_theme).isOk = true) :
    ∃ m, horizonCall cfg pw = Except.ok m ∧
      (∀ k ∈ horizonKeys, (m.lookup k).isSome = true) ∧
      m.lookup "customization_module" = some (ovs cfg.customization_module) ∧
      (cfg.customization_module = none →
        m.lookup "customization_module" = some HVal.vnull) := by
  cases hb1 : bool_from_string cfg.offline_compression with
  | error e => rw [hb1] at h1; cases h1
  | ok b1 =>
  cases hb2 : bool_from_string cfg.debug with
  | error e => rw [hb2] at h2; cases h2
  | ok b2 =>
  cases hb3 : bool_from_string cfg.ubuntu_theme with
  | error e => rw [hb3] at h3; cases h3
  | ok b3 =>
      refine ⟨horizonDict cfg pw b1 b2 b3, ?_, ?_, rfl, ?_⟩
      · unfold horizonCall
        rw [hb1, hb2, hb3]
      · intro k hk
        unfold horizonKeys at hk
        fin_cases hk <;> rfl
      · intro h
        have h4 : (horizonDict cfg pw b1 b2 b3).lookup "customization_module" =
            some (ovs cfg.customization_module) := rfl
        rw [h4, h]
        rfl

/-- Witness for C9 amended: evaluated on the all-absent configuration. -/
theorem horizon_optional_absent_amended_witness :
    ∃ m, horizonCall cfgAllAbsent "generated-pw" = Except.ok m ∧
      (∀ k ∈ horizonKeys, (m.lookup k).isSome = true) ∧
      m.lookup "customization_module" =
        some (ovs cfgAllAbsent.customization_module) ∧
      (cfgAllAbsent.customization_module = none →
        m.lookup "customization_module" = some HVal.vnull) :=
  horizon_optional_absent_amended cfgAllAbsent "generated-pw"
    (by decide) (by decide) (by decide)

end HorizonCtx
